import Mathlib

/-!
The default operations of `UsdImagingPrimAdapter`.

A shallow embedding of `pxr/usdImaging/lib/usdImaging/primAdapter.cpp` and the
properties of its default adapter operations.

Conventions of the embedding:

* a `TfToken` is its string;
* an `SdfPath` is either the empty path `SdfPath()` or an absolute prim path,
  kept as the list of its element names from the root down;
* a prim of the scene is a `Usd_PrimData`: the pseudo-root, or a child of a
  prim, carrying what the scene description answers for it; a `UsdPrim` is a
  handle, `none` being the invalid prim `UsdPrim()`;
* C++ `float`, `UsdTimeCode`, `VtValue` and `GfMatrix4d` values are only copied,
  compared or handed to collaborators by this file, so their types are type
  parameters;
* `HdDirtyBits` is a 32 bit mask, kept as a natural number.
-/

set_option autoImplicit false
set_option linter.unusedVariables false

namespace UsdImaging

/-! ## Data model -/

/-- A token is identified with its string. -/
abbrev TfToken := String

/-- The render engine's 32 bit dirty mask. -/
abbrev HdDirtyBits := Nat

/-- The two `HdChangeTracker` enumerators that `ProcessPrimChange` returns. The
enumeration is declared outside this file, so its values are parameters. -/
structure HdChangeTracker where
  Clean : HdDirtyBits
  AllDirty : HdDirtyBits

/-- A field definition of the scene-description schema, as far as the adapter
looks at it. -/
structure FieldDefinition where
  IsPlugin : Bool

/-- The scene-description schema: `GetFieldDefinition` returns no definition
(`nullptr`) for a field the schema does not know. -/
structure SdfSchema where
  GetFieldDefinition : TfToken → Option FieldDefinition

/-- An `SdfPath`: the empty path, or an absolute prim path given by its element
names, root first. `absolute []` is the absolute root path `/`. -/
inductive SdfPath where
  | empty
  | absolute (elems : List TfToken)
  deriving DecidableEq, Repr

namespace SdfPath

/-- The path `/`. -/
def AbsoluteRootPath : SdfPath := absolute []

/-- Modelled from the spec: `SdfPath::ReplacePrefix`, which is defined outside
this file. A path equal to the old prefix becomes the new prefix; an absolute
path that starts with the old prefix has that prefix replaced by the new one
(the empty path when the new prefix is the empty path); every other path is
returned unchanged. -/
def ReplacePrefix (self oldPrefix newPrefix : SdfPath) : SdfPath :=
  if self = oldPrefix then newPrefix
  else
    match self, oldPrefix with
    | absolute p, absolute o =>
      if o.isPrefixOf p then
        match newPrefix with
        | absolute n => absolute (n ++ p.drop o.length)
        | empty => empty
      else self
    | _, _ => self

end SdfPath

/-- A value source of the scene description: a `UsdAttribute`, or the attribute
behind a `UsdGeomPrimvar`. `Get slot time` is the content of the caller's value
slot after `Get(&slot, time)`. -/
structure UsdAttribute (UsdTimeCode VtValue : Type) where
  ValueMightBeTimeVarying : Bool
  Get : VtValue → UsdTimeCode → VtValue

/-- What the scene description answers for one prim below the pseudo-root. -/
structure UsdPrimFacts (UsdTimeCode VtValue : Type) where
  IsMaster : Bool
  IsInMaster : Bool
  GetAttribute : TfToken → Option (UsdAttribute UsdTimeCode VtValue)
  GetPrimvar : TfToken → Option (UsdAttribute UsdTimeCode VtValue)
  FindInheritedPrimvar : TfToken → Option (UsdAttribute UsdTimeCode VtValue)

/-- A prim of the scene together with its chain of ancestors. -/
inductive Usd_PrimData (UsdTimeCode VtValue : Type) where
  | pseudoRoot
  | child (parent : Usd_PrimData UsdTimeCode VtValue) (name : TfToken)
      (facts : UsdPrimFacts UsdTimeCode VtValue)

/-- A prim handle; `none` is the invalid prim. -/
abbrev UsdPrim (UsdTimeCode VtValue : Type) := Option (Usd_PrimData UsdTimeCode VtValue)

/-- How a call that cannot return ends. -/
inductive Failure where
  | fatalVerify
  | invalidPrimAccess
  deriving DecidableEq, Repr

section Model

variable {UsdTimeCode VtValue : Type}

namespace Usd_PrimData

/-- Element names of the prim's path, root first. -/
def elems : Usd_PrimData UsdTimeCode VtValue → List TfToken
  | pseudoRoot => []
  | child parent name _ => elems parent ++ [name]

/-- The prim's path. -/
def GetPath (prim : Usd_PrimData UsdTimeCode VtValue) : SdfPath :=
  SdfPath.absolute prim.elems

/-- The parent handle; the pseudo-root has the invalid prim as parent. -/
def GetParent : Usd_PrimData UsdTimeCode VtValue → UsdPrim UsdTimeCode VtValue
  | pseudoRoot => none
  | child parent _ _ => some parent

/-- The pseudo-root is no master. -/
def IsMaster : Usd_PrimData UsdTimeCode VtValue → Bool
  | pseudoRoot => false
  | child _ _ facts => facts.IsMaster

/-- The pseudo-root is in no master. -/
def IsInMaster : Usd_PrimData UsdTimeCode VtValue → Bool
  | pseudoRoot => false
  | child _ _ facts => facts.IsInMaster

/-- The pseudo-root has no attributes. -/
def GetAttribute : Usd_PrimData UsdTimeCode VtValue → TfToken → Option (UsdAttribute UsdTimeCode VtValue)
  | pseudoRoot, _ => none
  | child _ _ facts, name => facts.GetAttribute name

/-- Lookup `UsdGeomPrimvarsAPI(prim).GetPrimvar(key)`. -/
def GetPrimvar : Usd_PrimData UsdTimeCode VtValue → TfToken → Option (UsdAttribute UsdTimeCode VtValue)
  | pseudoRoot, _ => none
  | child _ _ facts, name => facts.GetPrimvar name

/-- Lookup `UsdGeomPrimvarsAPI(prim).FindInheritedPrimvar(key)`. -/
def FindInheritedPrimvar :
    Usd_PrimData UsdTimeCode VtValue → TfToken → Option (UsdAttribute UsdTimeCode VtValue)
  | pseudoRoot, _ => none
  | child _ _ facts, name => facts.FindInheritedPrimvar name

/-- The prim followed by its ancestors, nearest first, up to the pseudo-root. -/
def ancestorsOrSelf : Usd_PrimData UsdTimeCode VtValue → List (Usd_PrimData UsdTimeCode VtValue)
  | pseudoRoot => [pseudoRoot]
  | child parent name facts => child parent name facts :: ancestorsOrSelf parent

end Usd_PrimData

/-- A stage: the facts of the prim at each absolute path, if there is one. -/
structure UsdStage (UsdTimeCode VtValue : Type) where
  facts : List TfToken → Option (UsdPrimFacts UsdTimeCode VtValue)

namespace UsdStage

/-- The prim whose path has the given elements, leaf first: it exists when the
stage has a prim at the path and at each of its ancestors. -/
def primAt (stage : UsdStage UsdTimeCode VtValue) : List TfToken → UsdPrim UsdTimeCode VtValue
  | [] => some Usd_PrimData.pseudoRoot
  | name :: above =>
    match primAt stage above, stage.facts (name :: above).reverse with
    | some parent, some facts => some (Usd_PrimData.child parent name facts)
    | _, _ => none

/-- The handle `stage->GetPrimAtPath(path)`; invalid when there is no such prim. -/
def GetPrimAtPath (stage : UsdStage UsdTimeCode VtValue) : SdfPath → UsdPrim UsdTimeCode VtValue
  | SdfPath.empty => none
  | SdfPath.absolute elems => primAt stage elems.reverse

end UsdStage

/-! ## ProcessPrimChange -/

/-- The default `UsdImagingPrimAdapter::ProcessPrimChange`: the loop over the
changed fields returns `AllDirty` at the first field whose definition exists and
is a plugin field, and `Clean` after the last field. -/
def ProcessPrimChange (tracker : HdChangeTracker) (schema : SdfSchema)
    (prim : Usd_PrimData UsdTimeCode VtValue) (cachePath : SdfPath) :
    List TfToken → HdDirtyBits
  | [] => tracker.Clean
  | field :: rest =>
    match schema.GetFieldDefinition field with
    | some fieldDef =>
      if fieldDef.IsPlugin then tracker.AllDirty
      else ProcessPrimChange tracker schema prim cachePath rest
    | none => ProcessPrimChange tracker schema prim cachePath rest

/-- The spec's plugin field: a field whose schema definition exists and is a
plugin field. A field without a definition, or with a built-in one, is not. -/
def isPluginField (schema : SdfSchema) (field : TfToken) : Bool :=
  match schema.GetFieldDefinition field with
  | some fieldDef => fieldDef.IsPlugin
  | none => false

/-! ## _GetPrimPathFromInstancerChain -/

/-- Modelled from the spec: the `TF_VERIFY` macro, which is defined outside this
file. The spec makes a violated check a fatal internal-consistency failure, so a
false condition ends the call. -/
def TF_VERIFY (cond : Bool) : Except Failure Unit :=
  if cond then Except.ok () else Except.error Failure.fatalVerify

/-- The loop `while (!master.IsMaster()) master = master.GetParent();`. Above
the pseudo-root the handle is invalid and `IsMaster` cannot be asked. -/
def masterWalk : Usd_PrimData UsdTimeCode VtValue → Except Failure (Usd_PrimData UsdTimeCode VtValue)
  | Usd_PrimData.pseudoRoot => Except.error Failure.invalidPrimAccess
  | Usd_PrimData.child parent name facts =>
    if facts.IsMaster then Except.ok (Usd_PrimData.child parent name facts)
    else masterWalk parent

/-- The body of the loop of `_GetPrimPathFromInstancerChain` for one link;
`verify` is the macro of the statement `TF_VERIFY(prim.IsInMaster());`. -/
def instancerChainStep (verify : Bool → Except Failure Unit)
    (stage : UsdStage UsdTimeCode VtValue) (primPath link : SdfPath) :
    Except Failure SdfPath :=
  match stage.GetPrimAtPath primPath with
  | none => Except.error Failure.invalidPrimAccess
  | some prim =>
    match verify prim.IsInMaster with
    | Except.error e => Except.error e
    | Except.ok () =>
      match masterWalk prim with
      | Except.error e => Except.error e
      | Except.ok master => Except.ok (primPath.ReplacePrefix master.GetPath link)

/-- The loop of `_GetPrimPathFromInstancerChain` over the links
`instancerChain[1]`, `instancerChain[2]`, ... -/
def instancerChainLoop (verify : Bool → Except Failure Unit)
    (stage : UsdStage UsdTimeCode VtValue) :
    SdfPath → List SdfPath → Except Failure SdfPath
  | primPath, [] => Except.ok primPath
  | primPath, link :: rest =>
    match instancerChainStep verify stage primPath link with
    | Except.error e => Except.error e
    | Except.ok next => instancerChainLoop verify stage next rest

/-- The function `UsdImagingPrimAdapter::_GetPrimPathFromInstancerChain`, over
the macro `verify` of its check and the delegate's stage. -/
def _GetPrimPathFromInstancerChain (verify : Bool → Except Failure Unit)
    (stage : UsdStage UsdTimeCode VtValue) : List SdfPath → Except Failure SdfPath
  | [] => Except.ok SdfPath.empty
  | first :: rest => instancerChainLoop verify stage first rest

/-- The step of the spec's resolver: the node at the working path must live
under a master subtree, and the path of its nearest master ancestor is replaced,
as a prefix of the working path, by the link. -/
def instancePathStepRef (stage : UsdStage UsdTimeCode VtValue) (working link : SdfPath) :
    Option SdfPath :=
  match stage.GetPrimAtPath working with
  | none => none
  | some node =>
    if node.IsInMaster then
      (node.ancestorsOrSelf.find? Usd_PrimData.IsMaster).map
        (fun master => working.ReplacePrefix master.GetPath link)
    else none

/-- The spec's resolver (section 4.3): the empty chain gives the empty path;
otherwise the working path starts as the first link and each later link, in
order, is substituted by `instancePathStepRef`. -/
def instancePathRef (stage : UsdStage UsdTimeCode VtValue) : List SdfPath → Option SdfPath
  | [] => some SdfPath.empty
  | first :: later => later.foldlM (instancePathStepRef stage) first

/-- The spec's well-formed `InstancerChain`: each link except the last names a
node that lives under a master subtree. -/
def wellFormedChain (stage : UsdStage UsdTimeCode VtValue) (chain : List SdfPath) : Bool :=
  chain.dropLast.all fun link =>
    match stage.GetPrimAtPath link with
    | some node => node.IsInMaster
    | none => false

/-! ## _MergePrimvar -/

/-- The enumeration `HdInterpolation`, by the number of the enumerator. -/
abbrev HdInterpolation := Nat

/-- The triple `HdPrimvarDescriptor`. -/
structure HdPrimvarDescriptor where
  name : TfToken
  interpolation : HdInterpolation
  role : TfToken
  deriving DecidableEq, Repr

/-- Modelled from the spec: `HdPrimvarDescriptor::operator==`, which is declared
outside this file. The spec's descriptor is the triple of name, interpolation
class and role, so two descriptors compare equal when all three components are
equal. -/
def HdPrimvarDescriptor.equals (a b : HdPrimvarDescriptor) : Bool :=
  a.name == b.name && a.interpolation == b.interpolation && a.role == b.role

/-- The function `UsdImagingPrimAdapter::_MergePrimvar`, over the comparison
that `std::find` uses: the first entry equal to the new descriptor is
overwritten, and without one the descriptor is pushed back. -/
def _MergePrimvar (equal : HdPrimvarDescriptor → HdPrimvarDescriptor → Bool)
    (vec : List HdPrimvarDescriptor) (name : TfToken) (interp : HdInterpolation)
    (role : TfToken) : List HdPrimvarDescriptor :=
  let primvar : HdPrimvarDescriptor := ⟨name, interp, role⟩
  match vec.findIdx? (fun entry => equal entry primvar) with
  | none => vec ++ [primvar]
  | some it => vec.set it primvar

/-! ## _IsVarying -/

/-- The complement `~bits` of a 32 bit mask. -/
def complement32 (bits : HdDirtyBits) : HdDirtyBits :=
  (2 ^ 32 - 1) ^^^ (bits % 2 ^ 32)

/-- The call `attr.ValueMightBeTimeVarying()` on the result of `GetAttribute`:
an attribute that does not exist does not vary. -/
def attrMightBeTimeVarying (attr : Option (UsdAttribute UsdTimeCode VtValue)) : Bool :=
  match attr with
  | some a => a.ValueMightBeTimeVarying
  | none => false

/-- The do-while loop of `_IsVarying`, started at a valid prim. After the body
the prim is replaced by its parent and the loop goes on when `isInherited` holds
and the parent's path is not `/`. Started at the pseudo-root with `isInherited`,
the parent is the invalid prim, whose path is not `/`, and the next round asks
the invalid prim for an attribute. -/
def isVaryingLoop (attrName : TfToken) (isInherited : Bool) :
    Usd_PrimData UsdTimeCode VtValue → Except Failure Bool
  | Usd_PrimData.pseudoRoot =>
    if isInherited then Except.error Failure.invalidPrimAccess else Except.ok false
  | Usd_PrimData.child parent _ facts =>
    if attrMightBeTimeVarying (facts.GetAttribute attrName) then Except.ok true
    else if isInherited && decide (parent.GetPath ≠ SdfPath.AbsoluteRootPath) then
      isVaryingLoop attrName isInherited parent
    else Except.ok false

/-- The function `UsdImagingPrimAdapter::_IsVarying`: the answer and the dirty
flags after the call. The perf counter is instrumentation and is left out. -/
def _IsVarying (prim : UsdPrim UsdTimeCode VtValue) (attrName : TfToken)
    (dirtyFlag : HdDirtyBits) (perfToken : TfToken) (dirtyFlags : HdDirtyBits)
    (isInherited : Bool) : Except Failure (Bool × HdDirtyBits) :=
  let cleared := dirtyFlags &&& complement32 dirtyFlag
  match prim with
  | none => Except.error Failure.invalidPrimAccess
  | some valid =>
    match isVaryingLoop attrName isInherited valid with
    | Except.error e => Except.error e
    | Except.ok true => Except.ok (true, cleared ||| dirtyFlag)
    | Except.ok false => Except.ok (false, cleared)

/-! ## _IsTransformVarying -/

/-- The `XformQuery` that the transform cache keeps for a prim, as far as the
adapter reads it. -/
structure XformQuery where
  TransformMightBeTimeVarying : Bool
  GetResetXformStack : Bool

/-- The do-while loop of `_IsTransformVarying`, started at a valid prim, with
`GetQuery` the transform cache's query lookup. The walk ends at a prim that
resets the transform stack and goes on while the parent's path is not `/`.
Started at the pseudo-root, the parent is the invalid prim, whose path is not
`/`, and the next round asks the cache for the invalid prim. -/
def isTransformVaryingLoop (GetQuery : Usd_PrimData UsdTimeCode VtValue → XformQuery) :
    Usd_PrimData UsdTimeCode VtValue → Except Failure Bool
  | Usd_PrimData.pseudoRoot =>
    if (GetQuery Usd_PrimData.pseudoRoot).TransformMightBeTimeVarying then Except.ok true
    else if (GetQuery Usd_PrimData.pseudoRoot).GetResetXformStack then Except.ok false
    else Except.error Failure.invalidPrimAccess
  | Usd_PrimData.child parent name facts =>
    if (GetQuery (Usd_PrimData.child parent name facts)).TransformMightBeTimeVarying then
      Except.ok true
    else if (GetQuery (Usd_PrimData.child parent name facts)).GetResetXformStack then
      Except.ok false
    else if decide (parent.GetPath ≠ SdfPath.AbsoluteRootPath) then
      isTransformVaryingLoop GetQuery parent
    else Except.ok false

/-- The function `UsdImagingPrimAdapter::_IsTransformVarying`: the answer and the
dirty flags after the call. The perf counter is instrumentation and is left
out. -/
def _IsTransformVarying (GetQuery : Usd_PrimData UsdTimeCode VtValue → XformQuery)
    (prim : UsdPrim UsdTimeCode VtValue) (dirtyFlag : HdDirtyBits) (perfToken : TfToken)
    (dirtyFlags : HdDirtyBits) : Except Failure (Bool × HdDirtyBits) :=
  let cleared := dirtyFlags &&& complement32 dirtyFlag
  match prim with
  | none => Except.error Failure.invalidPrimAccess
  | some valid =>
    match isTransformVaryingLoop GetQuery valid with
    | Except.error e => Except.error e
    | Except.ok true => Except.ok (true, cleared ||| dirtyFlag)
    | Except.ok false => Except.ok (false, cleared)

/-! ## SamplePrimvar -/

/-- The caller's output arrays `times` and `samples`, by index. -/
structure SampleBuffers (F VtValue : Type) where
  times : Nat → F
  samples : Nat → VtValue

/-- The spec's resolution order of a key: the primvar on the node, else the
inherited primvar, else the plain attribute. -/
def firstResolvedSource (usdPrim : Usd_PrimData UsdTimeCode VtValue) (key : TfToken) :
    Option (UsdAttribute UsdTimeCode VtValue) :=
  ((usdPrim.GetPrimvar key).orElse fun _ => usdPrim.FindInheritedPrimvar key).orElse
    fun _ => usdPrim.GetAttribute key

section Sampling

variable {F : Type}

/-- The loop `for (size_t i=0; i < numSamples; ++i)` of `SamplePrimvar`, with
`remaining` rounds to go from index `i`. -/
def sampleLoop (GetTimeWithOffset : F → UsdTimeCode)
    (source : UsdAttribute UsdTimeCode VtValue) (configuredSampleTimes : List F) :
    Nat → Nat → SampleBuffers F VtValue → SampleBuffers F VtValue
  | 0, _, out => out
  | remaining + 1, i, out =>
    match configuredSampleTimes[i]? with
    | none => out
    | some offset =>
      let sceneTime := GetTimeWithOffset offset
      sampleLoop GetTimeWithOffset source configuredSampleTimes remaining (i + 1)
        { times := Function.update out.times i offset
          samples := Function.update out.samples i (source.Get (out.samples i) sceneTime) }

/-- What `SamplePrimvar` does with a resolved primvar or attribute. -/
def sampleSource [Zero F] (GetTimeWithOffset : F → UsdTimeCode)
    (source : UsdAttribute UsdTimeCode VtValue) (time : UsdTimeCode)
    (configuredSampleTimes : List F) (maxNumSamples : Nat) (out : SampleBuffers F VtValue) :
    Nat × SampleBuffers F VtValue :=
  if source.ValueMightBeTimeVarying then
    let numSamples := min maxNumSamples configuredSampleTimes.length
    (numSamples, sampleLoop GetTimeWithOffset source configuredSampleTimes numSamples 0 out)
  else
    (1, { times := Function.update out.times 0 0
          samples := Function.update out.samples 0 (source.Get (out.samples 0) time) })

/-- The function `UsdImagingPrimAdapter::SamplePrimvar`: the returned count and
the output arrays after the call. `GetTimeWithOffset` is the delegate's. -/
def SamplePrimvar [Zero F] (GetTimeWithOffset : F → UsdTimeCode)
    (usdPrim : Usd_PrimData UsdTimeCode VtValue) (cachePath : SdfPath) (key : TfToken)
    (time : UsdTimeCode) (configuredSampleTimes : List F) (maxNumSamples : Nat)
    (out : SampleBuffers F VtValue) : Nat × SampleBuffers F VtValue :=
  let pv :=
    match usdPrim.GetPrimvar key with
    | some pv => some pv
    | none => usdPrim.FindInheritedPrimvar key
  match pv with
  | some pv => sampleSource GetTimeWithOffset pv time configuredSampleTimes maxNumSamples out
  | none =>
    match usdPrim.GetAttribute key with
    | some attr =>
      sampleSource GetTimeWithOffset attr time configuredSampleTimes maxNumSamples out
    | none => (0, out)

end Sampling

/-! ## GetTransform, GetVisible, GetMaterialId -/

/-- The three environment settings, read once. -/
structure CacheSettings where
  enableSharedXformCache : Bool
  enableBindingCache : Bool
  enableVisCache : Bool

/-- A `UsdImaging_InheritedCache`, as far as the adapter reads it: the time it is
stamped with, its root path and its value for a prim. -/
structure UsdImaging_InheritedCache (UsdTimeCode VtValue R : Type) where
  GetTime : UsdTimeCode
  GetRootPath : SdfPath
  GetValue : Usd_PrimData UsdTimeCode VtValue → R

section Caches

variable {GfMatrix4d Overrides ImplData : Type} [BEq UsdTimeCode]

/-- The function `UsdImagingPrimAdapter::GetTransform`. `ComputeTransform` is the
direct strategy, `mul` the matrix product. -/
def GetTransform (settings : CacheSettings)
    (xfCache : UsdImaging_InheritedCache UsdTimeCode VtValue GfMatrix4d)
    (ComputeTransform :
      Usd_PrimData UsdTimeCode VtValue → SdfPath → UsdTimeCode → Overrides → GfMatrix4d)
    (rigidXformOverrides : Overrides) (mul : GfMatrix4d → GfMatrix4d → GfMatrix4d)
    (GetRootTransform : GfMatrix4d) (prim : Usd_PrimData UsdTimeCode VtValue)
    (time : UsdTimeCode) (ignoreRootTransform : Bool) : GfMatrix4d :=
  let ctm :=
    if settings.enableSharedXformCache && xfCache.GetTime == time then xfCache.GetValue prim
    else ComputeTransform prim xfCache.GetRootPath time rigidXformOverrides
  if ignoreRootTransform then ctm else mul ctm GetRootTransform

/-- The function `UsdImagingPrimAdapter::GetVisible`; `inherited` is the token
`UsdGeomTokens->inherited`. -/
def GetVisible (settings : CacheSettings) (IsInInvisedPaths : SdfPath → Bool)
    (visCache : UsdImaging_InheritedCache UsdTimeCode VtValue TfToken)
    (ComputeVisibility : Usd_PrimData UsdTimeCode VtValue → UsdTimeCode → TfToken)
    (inherited : TfToken) (prim : Usd_PrimData UsdTimeCode VtValue) (time : UsdTimeCode) :
    Bool :=
  if IsInInvisedPaths prim.GetPath then false
  else if settings.enableVisCache && visCache.GetTime == time then
    visCache.GetValue prim == inherited
  else ComputeVisibility prim time == inherited

/-- The function `UsdImagingPrimAdapter::GetMaterialId`. -/
def GetMaterialId (settings : CacheSettings)
    (materialBindingCache : UsdImaging_InheritedCache UsdTimeCode VtValue SdfPath)
    (ComputeMaterialPath : Usd_PrimData UsdTimeCode VtValue → ImplData → SdfPath)
    (materialBindingImplData : ImplData) (prim : Usd_PrimData UsdTimeCode VtValue) :
    SdfPath :=
  if settings.enableBindingCache then materialBindingCache.GetValue prim
  else ComputeMaterialPath prim materialBindingImplData

end Caches

end Model

/-! ## Example scenes -/

/-- Facts of a prim without attributes. -/
def plainFacts (isMaster isInMaster : Bool) : UsdPrimFacts Nat Nat where
  IsMaster := isMaster
  IsInMaster := isInMaster
  GetAttribute := fun _ => none
  GetPrimvar := fun _ => none
  FindInheritedPrimvar := fun _ => none

/-- A stage with the masters `/Master1`, `/Master2`, `/__Master__1` and
`/__Master__2`, and the point instancer `/PointInstancer` with `ProtoA`. -/
def exampleStage : UsdStage Nat Nat where
  facts := fun path =>
    if [["Master1"], ["Master2"], ["__Master__1"], ["__Master__2"]].contains path then
      some (plainFacts true true)
    else if [["Master1", "cube"], ["Master2", "cube"], ["__Master__1", "cube"],
        ["__Master__2", "ProtoCube"], ["__Master__2", "ProtoCube", "cube"]].contains path then
      some (plainFacts false true)
    else if [["PointInstancer"], ["PointInstancer", "ProtoA"],
        ["PointInstancer", "ProtoA", "cube"]].contains path then
      some (plainFacts false false)
    else none

/-- A schema in which `visibility` is built-in and `myPluginAttr` is a plugin
field. -/
def exampleSchema : SdfSchema where
  GetFieldDefinition := fun field =>
    if field = "visibility" then some ⟨false⟩
    else if field = "myPluginAttr" then some ⟨true⟩
    else none

/-- An attribute whose value at time `t` is `10 * t`. -/
def exampleAttribute (mightVary : Bool) : UsdAttribute Int Int where
  ValueMightBeTimeVarying := mightVary
  Get := fun _ time => 10 * time

/-- Facts of a mesh: a time-varying attribute `points`, a constant primvar
`displayColor` and nothing else. -/
def exampleMeshFacts : UsdPrimFacts Int Int where
  IsMaster := false
  IsInMaster := false
  GetAttribute := fun name => if name = "points" then some (exampleAttribute true) else none
  GetPrimvar := fun name => if name = "displayColor" then some (exampleAttribute false) else none
  FindInheritedPrimvar := fun _ => none

/-- Facts of a group with a constant attribute `visibility`. -/
def exampleGroupFacts : UsdPrimFacts Int Int where
  IsMaster := false
  IsInMaster := false
  GetAttribute := fun name =>
    if name = "visibility" then some (exampleAttribute false) else none
  GetPrimvar := fun _ => none
  FindInheritedPrimvar := fun _ => none

/-- The prim `/world`. -/
def exampleWorld : Usd_PrimData Int Int :=
  Usd_PrimData.child Usd_PrimData.pseudoRoot "world" exampleGroupFacts

/-- The prim `/world/mesh`. -/
def exampleMesh : Usd_PrimData Int Int :=
  Usd_PrimData.child exampleWorld "mesh" exampleMeshFacts

/-- A material-binding cache stamped with time 1 that holds `/Looks/MatA` for
every prim. -/
def staleBindingCacheA : UsdImaging_InheritedCache Int Int SdfPath where
  GetTime := 1
  GetRootPath := SdfPath.AbsoluteRootPath
  GetValue := fun _ => SdfPath.absolute ["Looks", "MatA"]

/-- A material-binding cache stamped with time 1 that holds `/Looks/MatB` for
every prim. -/
def staleBindingCacheB : UsdImaging_InheritedCache Int Int SdfPath where
  GetTime := 1
  GetRootPath := SdfPath.AbsoluteRootPath
  GetValue := fun _ => SdfPath.absolute ["Looks", "MatB"]

/-- A transform cache stamped with time 1 that holds the number `held` for every
prim; numbers stand for matrices. -/
def staleXformCache (held : Int) : UsdImaging_InheritedCache Int Int Int where
  GetTime := 1
  GetRootPath := SdfPath.AbsoluteRootPath
  GetValue := fun _ => held

/-- A visibility cache stamped with time 1 that holds `held` for every prim. -/
def staleVisCache (held : TfToken) : UsdImaging_InheritedCache Int Int TfToken where
  GetTime := 1
  GetRootPath := SdfPath.AbsoluteRootPath
  GetValue := fun _ => held

/-- The settings with every cache enabled, the default of the three
environment settings. -/
def allCachesEnabled : CacheSettings where
  enableSharedXformCache := true
  enableBindingCache := true
  enableVisCache := true

/-- Output arrays filled with zeros. -/
def zeroBuffers : SampleBuffers Int Int where
  times := fun _ => 0
  samples := fun _ => 0

/-! ## Properties of ProcessPrimChange -/

section Properties

variable {UsdTimeCode VtValue : Type}

theorem ProcessPrimChange_eq_any (tracker : HdChangeTracker) (schema : SdfSchema)
    (prim : Usd_PrimData UsdTimeCode VtValue) (cachePath : SdfPath)
    (changedFields : List TfToken) :
    ProcessPrimChange tracker schema prim cachePath changedFields =
      if changedFields.any (isPluginField schema) then tracker.AllDirty else tracker.Clean := by
  induction changedFields with
  | nil => simp [ProcessPrimChange]
  | cons field rest ih =>
    cases hdef : schema.GetFieldDefinition field with
    | none => simp [ProcessPrimChange, isPluginField, hdef, ih]
    | some fieldDef =>
      cases hplug : fieldDef.IsPlugin <;>
        simp [ProcessPrimChange, isPluginField, hdef, hplug, ih]

/-- C1. The default `ProcessPrimChange` returns `AllDirty` exactly when some
changed field is a plugin field of the schema and `Clean` otherwise; so it
returns `Clean` for the empty list and when no changed field is a plugin field,
`Clean` for `visibility` and `AllDirty` for `myPluginAttr` in the example
schema; and the result is the same for every prim and cache path. -/
theorem ProcessPrimChange_allDirty_iff_plugin_field (tracker : HdChangeTracker)
    (schema : SdfSchema) (prim other : Usd_PrimData UsdTimeCode VtValue)
    (cachePath otherPath : SdfPath) (changedFields : List TfToken) :
    (ProcessPrimChange tracker schema prim cachePath changedFields =
        if changedFields.any (isPluginField schema) then tracker.AllDirty
        else tracker.Clean) ∧
      ProcessPrimChange tracker schema prim cachePath [] = tracker.Clean ∧
      ((∀ field ∈ changedFields, isPluginField schema field = false) →
        ProcessPrimChange tracker schema prim cachePath changedFields = tracker.Clean) ∧
      ProcessPrimChange tracker exampleSchema prim cachePath ["visibility"] = tracker.Clean ∧
      ProcessPrimChange tracker exampleSchema prim cachePath ["myPluginAttr"] =
        tracker.AllDirty ∧
      ProcessPrimChange tracker schema prim cachePath changedFields =
        ProcessPrimChange tracker schema other otherPath changedFields := by
  refine ⟨ProcessPrimChange_eq_any _ _ _ _ _, rfl, ?_, ?_, ?_, ?_⟩
  · intro hall
    rw [ProcessPrimChange_eq_any]
    have hany : changedFields.any (isPluginField schema) = false := by
      rw [List.any_eq_false]
      intro field hmem
      simp [hall field hmem]
    simp [hany]
  · simp [ProcessPrimChange, exampleSchema]
  · simp [ProcessPrimChange, exampleSchema]
  · rw [ProcessPrimChange_eq_any, ProcessPrimChange_eq_any]

end Properties

/-! ## Properties of _MergePrimvar -/

theorem index_unique_of_nodup_names (vec : List HdPrimvarDescriptor)
    (hnodup : (vec.map (fun entry => entry.name)).Nodup) (i j : Nat)
    (hi : i < vec.length) (hj : j < vec.length)
    (hsame : (vec.get ⟨i, hi⟩).name = (vec.get ⟨j, hj⟩).name) : i = j := by
  induction vec generalizing i j with
  | nil => simp at hi
  | cons head rest ih =>
    have hnd : head.name ∉ rest.map (fun entry => entry.name) ∧
        (rest.map (fun entry => entry.name)).Nodup := by
      rw [List.map_cons] at hnodup
      exact List.nodup_cons.mp hnodup
    cases i with
    | zero =>
      cases j with
      | zero => rfl
      | succ l =>
        exfalso
        apply hnd.1
        have hl : l < rest.length := by simpa using hj
        have hmem : (rest.get ⟨l, hl⟩).name ∈ rest.map (fun entry => entry.name) :=
          List.mem_map_of_mem _ (List.get_mem _ _ _)
        have hhead : head.name = (rest.get ⟨l, hl⟩).name := by simpa using hsame
        rw [hhead]
        exact hmem
    | succ k =>
      cases j with
      | zero =>
        exfalso
        apply hnd.1
        have hk : k < rest.length := by simpa using hi
        have hmem : (rest.get ⟨k, hk⟩).name ∈ rest.map (fun entry => entry.name) :=
          List.mem_map_of_mem _ (List.get_mem _ _ _)
        have hhead : (rest.get ⟨k, hk⟩).name = head.name := by simpa using hsame
        rw [← hhead]
        exact hmem
      | succ l =>
        have hk : k < rest.length := by simpa using hi
        have hl : l < rest.length := by simpa using hj
        have := ih hnd.2 k l hk hl (by simpa using hsame)
        omega

theorem equals_iff_eq (a b : HdPrimvarDescriptor) :
    HdPrimvarDescriptor.equals a b = true ↔ a = b := by
  cases a
  cases b
  simp [HdPrimvarDescriptor.equals, and_assoc]

/-- C5, the code against the claim. On a descriptor list with at most one entry
per name whose entry at position `i` has the given name but another
interpolation or role, `_MergePrimvar` does not overwrite that entry: `std::find`
compares whole descriptors and finds none, so the new descriptor is pushed back,
the list grows by one and holds two entries of that name. -/
theorem _MergePrimvar_appends_second_entry_of_name (vec : List HdPrimvarDescriptor)
    (name : TfToken) (interp : HdInterpolation) (role : TfToken) (i : Nat)
    (hi : i < vec.length)
    (hnodup : (vec.map (fun entry => entry.name)).Nodup)
    (hname : (vec.get ⟨i, hi⟩).name = name)
    (hdiffers : (vec.get ⟨i, hi⟩).interpolation ≠ interp ∨ (vec.get ⟨i, hi⟩).role ≠ role) :
    _MergePrimvar HdPrimvarDescriptor.equals vec name interp role =
        vec ++ [⟨name, interp, role⟩] ∧
      (_MergePrimvar HdPrimvarDescriptor.equals vec name interp role).length =
        vec.length + 1 ∧
      (_MergePrimvar HdPrimvarDescriptor.equals vec name interp role)[i]? =
        some (vec.get ⟨i, hi⟩) ∧
      ¬ ((_MergePrimvar HdPrimvarDescriptor.equals vec name interp role).map
        (fun entry => entry.name)).Nodup := by
  have hnone : ∀ entry ∈ vec, HdPrimvarDescriptor.equals entry ⟨name, interp, role⟩ = false := by
    intro entry hmem
    cases hequal : HdPrimvarDescriptor.equals entry ⟨name, interp, role⟩ with
    | false => rfl
    | true =>
      exfalso
      have hentry : entry = ⟨name, interp, role⟩ := (equals_iff_eq _ _).mp hequal
      obtain ⟨j, hj, hget⟩ := List.getElem_of_mem hmem
      have hget2 : vec.get ⟨j, hj⟩ = ⟨name, interp, role⟩ := by
        rw [← hentry, ← hget]
        rfl
      have hji : j = i :=
        index_unique_of_nodup_names vec hnodup j i hj hi (by rw [hget2, hname])
      subst hji
      rw [hget2] at hdiffers
      rcases hdiffers with h | h <;> exact h rfl
  have hfind : vec.findIdx?
      (fun entry => HdPrimvarDescriptor.equals entry ⟨name, interp, role⟩) = none :=
    List.findIdx?_eq_none_iff.mpr hnone
  have hres : _MergePrimvar HdPrimvarDescriptor.equals vec name interp role =
      vec ++ [⟨name, interp, role⟩] := by
    simp [_MergePrimvar, hfind]
  refine ⟨hres, ?_, ?_, ?_⟩
  · rw [hres]
    simp
  · rw [hres, List.getElem?_append_left hi]
    simp [List.getElem?_eq_getElem hi]
  · rw [hres, List.map_append, List.nodup_append]
    intro hall
    have hleft : name ∈ vec.map (fun entry => entry.name) := by
      rw [← hname]
      exact List.mem_map_of_mem _ (List.get_mem _ _ _)
    have hright : name ∈ [(⟨name, interp, role⟩ : HdPrimvarDescriptor)].map
        (fun entry => entry.name) := by
      simp
    exact hall.2.2 hleft hright

/-- Witness of C5, the code against the claim: merging `normals` with a new
interpolation and role into a list that holds `normals` gives two entries named
`normals`. -/
theorem _MergePrimvar_appends_second_entry_of_name_witness :
    _MergePrimvar HdPrimvarDescriptor.equals
        [⟨"normals", 1, "normal"⟩, ⟨"displayColor", 0, "color"⟩] "normals" 3 "vector" =
      [⟨"normals", 1, "normal"⟩, ⟨"displayColor", 0, "color"⟩, ⟨"normals", 3, "vector"⟩] :=
  (_MergePrimvar_appends_second_entry_of_name
    [⟨"normals", 1, "normal"⟩, ⟨"displayColor", 0, "color"⟩] "normals" 3 "vector" 0
    (by decide) (by decide) rfl (Or.inl (by decide))).1

/-! ## Properties of SamplePrimvar -/

section SamplingProperties

variable {UsdTimeCode VtValue F : Type}

theorem sampleLoop_before (GetTimeWithOffset : F → UsdTimeCode)
    (source : UsdAttribute UsdTimeCode VtValue) (configuredSampleTimes : List F)
    (remaining i : Nat) (out : SampleBuffers F VtValue) (j : Nat) (hj : j < i) :
    (sampleLoop GetTimeWithOffset source configuredSampleTimes remaining i out).times j =
        out.times j ∧
      (sampleLoop GetTimeWithOffset source configuredSampleTimes remaining i out).samples j =
        out.samples j := by
  induction remaining generalizing i out with
  | zero => simp [sampleLoop]
  | succ n ih =>
    cases hget : configuredSampleTimes[i]? with
    | none => simp [sampleLoop, hget]
    | some offset =>
      have hne : j ≠ i := Nat.ne_of_lt hj
      have hstep := ih (i + 1)
        { times := Function.update out.times i offset
          samples := Function.update out.samples i
            (source.Get (out.samples i) (GetTimeWithOffset offset)) }
        (Nat.lt_succ_of_lt hj)
      simp only [sampleLoop, hget]
      rw [hstep.1, hstep.2]
      simp [Function.update, hne]

theorem sampleLoop_inside (GetTimeWithOffset : F → UsdTimeCode)
    (source : UsdAttribute UsdTimeCode VtValue) (configuredSampleTimes : List F)
    (remaining i : Nat) (out : SampleBuffers F VtValue)
    (hfit : i + remaining ≤ configuredSampleTimes.length) (j : Nat) (hlo : i ≤ j)
    (hhi : j < i + remaining) :
    ∃ offset, configuredSampleTimes[j]? = some offset ∧
      (sampleLoop GetTimeWithOffset source configuredSampleTimes remaining i out).times j =
        offset ∧
      (sampleLoop GetTimeWithOffset source configuredSampleTimes remaining i out).samples j =
        source.Get (out.samples j) (GetTimeWithOffset offset) := by
  induction remaining generalizing i out with
  | zero => omega
  | succ n ih =>
    have hi : i < configuredSampleTimes.length := by omega
    have hget : configuredSampleTimes[i]? = some (configuredSampleTimes.get ⟨i, hi⟩) := by
      simp [List.getElem?_eq_getElem hi]
    by_cases hji : j = i
    · subst hji
      refine ⟨configuredSampleTimes.get ⟨j, hi⟩, hget, ?_, ?_⟩
      · simp only [sampleLoop, hget]
        rw [(sampleLoop_before GetTimeWithOffset source configuredSampleTimes n (j + 1) _ j
          (Nat.lt_succ_self j)).1]
        simp [Function.update]
      · simp only [sampleLoop, hget]
        rw [(sampleLoop_before GetTimeWithOffset source configuredSampleTimes n (j + 1) _ j
          (Nat.lt_succ_self j)).2]
        simp [Function.update]
    · obtain ⟨offset, hoff, htime, hsample⟩ := ih (i + 1)
        { times := Function.update out.times i (configuredSampleTimes.get ⟨i, hi⟩)
          samples := Function.update out.samples i
            (source.Get (out.samples i)
              (GetTimeWithOffset (configuredSampleTimes.get ⟨i, hi⟩))) }
        (by omega) (by omega) (by omega)
      refine ⟨offset, hoff, ?_, ?_⟩
      · simp only [sampleLoop, hget]
        exact htime
      · simp only [sampleLoop, hget]
        rw [hsample]
        simp [Function.update, hji]

theorem SamplePrimvar_of_firstResolvedSource [Zero F] (GetTimeWithOffset : F → UsdTimeCode)
    (usdPrim : Usd_PrimData UsdTimeCode VtValue) (cachePath : SdfPath) (key : TfToken)
    (time : UsdTimeCode) (configuredSampleTimes : List F) (maxNumSamples : Nat)
    (out : SampleBuffers F VtValue) (source : UsdAttribute UsdTimeCode VtValue)
    (hsource : firstResolvedSource usdPrim key = some source) :
    SamplePrimvar GetTimeWithOffset usdPrim cachePath key time configuredSampleTimes
        maxNumSamples out =
      sampleSource GetTimeWithOffset source time configuredSampleTimes maxNumSamples out := by
  unfold firstResolvedSource at hsource
  unfold SamplePrimvar
  cases hpv : usdPrim.GetPrimvar key with
  | some pv =>
    simp only [hpv, Option.orElse] at hsource
    cases hsource
    rfl
  | none =>
    cases hinh : usdPrim.FindInheritedPrimvar key with
    | some pv =>
      simp only [hpv, hinh, Option.orElse] at hsource
      cases hsource
      rfl
    | none =>
      simp only [hpv, hinh, Option.orElse] at hsource
      simp only [hsource]

/-- C2. When the first source that resolves for the key (primvar, else inherited
primvar, else attribute) may be time-varying, `SamplePrimvar` returns
`min maxNumSamples (length of the offsets)`, and for each `i` below that count
`times[i]` is the `i`-th offset and `samples[i]` is what the source's `Get`
delivers at the delegate's time for that offset. -/
theorem SamplePrimvar_time_varying [Zero F] (GetTimeWithOffset : F → UsdTimeCode)
    (usdPrim : Usd_PrimData UsdTimeCode VtValue) (cachePath : SdfPath) (key : TfToken)
    (time : UsdTimeCode) (configuredSampleTimes : List F) (maxNumSamples : Nat)
    (out : SampleBuffers F VtValue) (source : UsdAttribute UsdTimeCode VtValue)
    (hsource : firstResolvedSource usdPrim key = some source)
    (hvary : source.ValueMightBeTimeVarying = true) :
    (SamplePrimvar GetTimeWithOffset usdPrim cachePath key time configuredSampleTimes
        maxNumSamples out).1 = min maxNumSamples configuredSampleTimes.length ∧
      ∀ i : Nat, i < min maxNumSamples configuredSampleTimes.length →
        ∃ offset, configuredSampleTimes[i]? = some offset ∧
          (SamplePrimvar GetTimeWithOffset usdPrim cachePath key time configuredSampleTimes
            maxNumSamples out).2.times i = offset ∧
          (SamplePrimvar GetTimeWithOffset usdPrim cachePath key time configuredSampleTimes
            maxNumSamples out).2.samples i =
            source.Get (out.samples i) (GetTimeWithOffset offset) := by
  rw [SamplePrimvar_of_firstResolvedSource GetTimeWithOffset usdPrim cachePath key time
    configuredSampleTimes maxNumSamples out source hsource]
  simp only [sampleSource, hvary, if_true]
  refine ⟨trivial, ?_⟩
  intro i hi
  exact sampleLoop_inside GetTimeWithOffset source configuredSampleTimes _ 0 out
    (by simp) i (Nat.zero_le i) (by simpa using hi)

/-- Witness of C2: two of three offsets are sampled from `points` of `/mesh`. -/
theorem SamplePrimvar_time_varying_witness :
    (SamplePrimvar (fun offset : Int => 100 + offset) exampleMesh SdfPath.empty "points" 100
        [-1, 0, 1] 2 zeroBuffers).1 = 2 ∧
      (SamplePrimvar (fun offset : Int => 100 + offset) exampleMesh SdfPath.empty "points" 100
        [-1, 0, 1] 2 zeroBuffers).2.times 0 = -1 ∧
      (SamplePrimvar (fun offset : Int => 100 + offset) exampleMesh SdfPath.empty "points" 100
        [-1, 0, 1] 2 zeroBuffers).2.samples 1 = 1000 :=
  ⟨(SamplePrimvar_time_varying (fun offset : Int => 100 + offset) exampleMesh SdfPath.empty
      "points" 100 [-1, 0, 1] 2 zeroBuffers (exampleAttribute true) rfl rfl).1,
    by decide, by decide⟩

/-- C3. When the first source that resolves for the key is time-invariant,
`SamplePrimvar` returns 1, `times[0]` is 0 and `samples[0]` is what the source's
`Get` delivers at the caller's base time, for every offsets list and every
`maxNumSamples`. -/
theorem SamplePrimvar_time_invariant [Zero F] (GetTimeWithOffset : F → UsdTimeCode)
    (usdPrim : Usd_PrimData UsdTimeCode VtValue) (cachePath : SdfPath) (key : TfToken)
    (time : UsdTimeCode) (configuredSampleTimes : List F) (maxNumSamples : Nat)
    (out : SampleBuffers F VtValue) (source : UsdAttribute UsdTimeCode VtValue)
    (hsource : firstResolvedSource usdPrim key = some source)
    (hfixed : source.ValueMightBeTimeVarying = false) :
    (SamplePrimvar GetTimeWithOffset usdPrim cachePath key time configuredSampleTimes
        maxNumSamples out).1 = 1 ∧
      (SamplePrimvar GetTimeWithOffset usdPrim cachePath key time configuredSampleTimes
        maxNumSamples out).2.times 0 = 0 ∧
      (SamplePrimvar GetTimeWithOffset usdPrim cachePath key time configuredSampleTimes
        maxNumSamples out).2.samples 0 = source.Get (out.samples 0) time := by
  rw [SamplePrimvar_of_firstResolvedSource GetTimeWithOffset usdPrim cachePath key time
    configuredSampleTimes maxNumSamples out source hsource]
  simp [sampleSource, hfixed]

/-- Witness of C3: the constant primvar `displayColor` of `/mesh` gives one
sample, taken at the base time 100. -/
theorem SamplePrimvar_time_invariant_witness :
    (SamplePrimvar (fun offset : Int => 100 + offset) exampleMesh SdfPath.empty "displayColor"
        100 [-1, 0, 1] 2 zeroBuffers).1 = 1 ∧
      (SamplePrimvar (fun offset : Int => 100 + offset) exampleMesh SdfPath.empty "displayColor"
        100 [-1, 0, 1] 2 zeroBuffers).2.samples 0 = 1000 :=
  ⟨(SamplePrimvar_time_invariant (fun offset : Int => 100 + offset) exampleMesh SdfPath.empty
      "displayColor" 100 [-1, 0, 1] 2 zeroBuffers (exampleAttribute false) rfl rfl).1,
    by decide⟩

end SamplingProperties

/-! ## Properties of _GetPrimPathFromInstancerChain -/

section ResolverProperties

variable {UsdTimeCode VtValue : Type}

theorem masterWalk_ok_iff (prim master : Usd_PrimData UsdTimeCode VtValue) :
    masterWalk prim = Except.ok master ↔
      prim.ancestorsOrSelf.find? Usd_PrimData.IsMaster = some master := by
  induction prim with
  | pseudoRoot => simp [masterWalk, Usd_PrimData.ancestorsOrSelf, Usd_PrimData.IsMaster]
  | child parent name facts ih =>
    cases hm : facts.IsMaster with
    | true =>
      simp [masterWalk, Usd_PrimData.ancestorsOrSelf, Usd_PrimData.IsMaster, hm]
    | false =>
      simp [masterWalk, Usd_PrimData.ancestorsOrSelf, Usd_PrimData.IsMaster, hm, ih]

theorem masterWalk_elems_start (prim master : Usd_PrimData UsdTimeCode VtValue)
    (hwalk : masterWalk prim = Except.ok master) : master.elems <+: prim.elems := by
  induction prim with
  | pseudoRoot => simp [masterWalk] at hwalk
  | child parent name facts ih =>
    cases hm : facts.IsMaster with
    | true =>
      have hself : Usd_PrimData.child parent name facts = master := by
        simpa [masterWalk, hm] using hwalk
      subst hself
      exact List.prefix_refl _
    | false =>
      have hup : masterWalk parent = Except.ok master := by
        simpa [masterWalk, hm] using hwalk
      exact (ih hup).trans (List.prefix_append _ _)

theorem primAt_elems (stage : UsdStage UsdTimeCode VtValue) (leafFirst : List TfToken)
    (prim : Usd_PrimData UsdTimeCode VtValue) (hprim : stage.primAt leafFirst = some prim) :
    prim.elems = leafFirst.reverse := by
  induction leafFirst generalizing prim with
  | nil =>
    simp only [UsdStage.primAt, Option.some.injEq] at hprim
    rw [← hprim]
    rfl
  | cons name above ih =>
    cases hparent : stage.primAt above with
    | none => simp [UsdStage.primAt, hparent] at hprim
    | some parent =>
      cases hfacts : stage.facts (above.reverse ++ [name]) with
      | none => simp [UsdStage.primAt, hparent, hfacts] at hprim
      | some facts =>
        have hchild : Usd_PrimData.child parent name facts = prim := by
          simpa [UsdStage.primAt, hparent, hfacts] using hprim
        rw [← hchild]
        simp [Usd_PrimData.elems, ih parent hparent]

theorem GetPrimAtPath_path (stage : UsdStage UsdTimeCode VtValue) (path : SdfPath)
    (prim : Usd_PrimData UsdTimeCode VtValue) (hprim : stage.GetPrimAtPath path = some prim) :
    path = SdfPath.absolute prim.elems := by
  cases path with
  | empty => simp [UsdStage.GetPrimAtPath] at hprim
  | absolute elems =>
    simp only [UsdStage.GetPrimAtPath] at hprim
    rw [primAt_elems stage _ prim hprim, List.reverse_reverse]

theorem ReplacePrefix_injective (p o : List TfToken) (new1 new2 : SdfPath) (hpre : o <+: p)
    (heq : (SdfPath.absolute p).ReplacePrefix (SdfPath.absolute o) new1 =
      (SdfPath.absolute p).ReplacePrefix (SdfPath.absolute o) new2) : new1 = new2 := by
  unfold SdfPath.ReplacePrefix at heq
  by_cases hself : SdfPath.absolute p = SdfPath.absolute o
  · simpa [hself] using heq
  · have hpo : o.isPrefixOf p = true := List.isPrefixOf_iff_prefix.mpr hpre
    simp only [hself, if_false, hpo, if_true] at heq
    cases new1 with
    | empty =>
      cases new2 with
      | empty => rfl
      | absolute n2 => simp at heq
    | absolute n1 =>
      cases new2 with
      | empty => simp at heq
      | absolute n2 =>
        simp only [SdfPath.absolute.injEq] at heq
        rw [List.append_left_inj] at heq
        rw [heq]

theorem instancerChainStep_ok_iff (stage : UsdStage UsdTimeCode VtValue)
    (primPath link result : SdfPath) :
    instancerChainStep TF_VERIFY stage primPath link = Except.ok result ↔
      instancePathStepRef stage primPath link = some result := by
  unfold instancerChainStep instancePathStepRef
  cases hprim : stage.GetPrimAtPath primPath with
  | none => simp
  | some prim =>
    cases hin : prim.IsInMaster with
    | false => simp [TF_VERIFY, hin]
    | true =>
      cases hwalk : masterWalk prim with
      | error e =>
        have hnone : prim.ancestorsOrSelf.find? Usd_PrimData.IsMaster = none := by
          cases hfind : prim.ancestorsOrSelf.find? Usd_PrimData.IsMaster with
          | none => rfl
          | some master =>
            rw [(masterWalk_ok_iff prim master).mpr hfind] at hwalk
            cases hwalk
        simp [TF_VERIFY, hin, hnone, hwalk]
      | ok master =>
        simp [TF_VERIFY, hin, (masterWalk_ok_iff prim master).mp hwalk, hwalk]

theorem instancerChainLoop_ok_iff (stage : UsdStage UsdTimeCode VtValue)
    (primPath : SdfPath) (links : List SdfPath) (result : SdfPath) :
    instancerChainLoop TF_VERIFY stage primPath links = Except.ok result ↔
      links.foldlM (instancePathStepRef stage) primPath = some result := by
  induction links generalizing primPath with
  | nil => simp [instancerChainLoop]
  | cons link rest ih =>
    simp only [instancerChainLoop, List.foldlM_cons]
    cases hstep : instancerChainStep TF_VERIFY stage primPath link with
    | error e =>
      have hnone : instancePathStepRef stage primPath link = none := by
        cases href : instancePathStepRef stage primPath link with
        | none => rfl
        | some next =>
          rw [(instancerChainStep_ok_iff stage primPath link next).mpr href] at hstep
          cases hstep
      simp [hnone]
    | ok next =>
      rw [(instancerChainStep_ok_iff stage primPath link next).mp hstep]
      simpa using ih next

theorem instancerChainLoop_append (verify : Bool → Except Failure Unit)
    (stage : UsdStage UsdTimeCode VtValue) (primPath : SdfPath)
    (consumed later : List SdfPath) :
    instancerChainLoop verify stage primPath (consumed ++ later) =
      match instancerChainLoop verify stage primPath consumed with
      | Except.error e => Except.error e
      | Except.ok working => instancerChainLoop verify stage working later := by
  induction consumed generalizing primPath with
  | nil => simp [instancerChainLoop]
  | cons link rest ih =>
    simp only [List.cons_append, instancerChainLoop]
    cases hstep : instancerChainStep verify stage primPath link with
    | error e => rfl
    | ok next => exact ih next

theorem resolver_toOption_eq_ref (stage : UsdStage UsdTimeCode VtValue)
    (instancerChain : List SdfPath) :
    (_GetPrimPathFromInstancerChain TF_VERIFY stage instancerChain).toOption =
      instancePathRef stage instancerChain := by
  cases instancerChain with
  | nil => rfl
  | cons first later =>
    simp only [_GetPrimPathFromInstancerChain, instancePathRef]
    cases hloop : instancerChainLoop TF_VERIFY stage first later with
    | ok result =>
      rw [(instancerChainLoop_ok_iff stage first later result).mp hloop]
      rfl
    | error e =>
      cases href : later.foldlM (instancePathStepRef stage) first with
      | none => rfl
      | some result =>
        rw [(instancerChainLoop_ok_iff stage first later result).mpr href] at hloop
        cases hloop

theorem instancerChainStep_ok_inv (verify : Bool → Except Failure Unit)
    (stage : UsdStage UsdTimeCode VtValue) (primPath link result : SdfPath)
    (hstep : instancerChainStep verify stage primPath link = Except.ok result) :
    ∃ prim master, stage.GetPrimAtPath primPath = some prim ∧
      masterWalk prim = Except.ok master ∧
      result = primPath.ReplacePrefix master.GetPath link := by
  unfold instancerChainStep at hstep
  cases hprim : stage.GetPrimAtPath primPath with
  | none => simp [hprim] at hstep
  | some prim =>
    cases hverify : verify prim.IsInMaster with
    | error e => simp [hprim, hverify] at hstep
    | ok u =>
      cases hwalk : masterWalk prim with
      | error e => simp [hprim, hverify, hwalk] at hstep
      | ok master =>
        simp only [hprim, hverify, hwalk, Except.ok.injEq] at hstep
        exact ⟨prim, master, rfl, hwalk, hstep.symm⟩

/-- C4. The resolver equals the spec's reference definition `instancePathRef`
(an aborted call counting as no path), and the empty chain gives the empty path.
For a chain `[p, q]` whose node at `p` lives under a master and has `master` as
nearest master ancestor, the result is `p` with the master's path replaced by
`q`. On the example stage `[/Master1/cube, /PointInstancer/ProtoA]` resolves to
`/PointInstancer/ProtoA/cube`, and the three-link chain of the code comment to
`/PointInstancer/ProtoA/ProtoCube/cube`. -/
theorem _GetPrimPathFromInstancerChain_eq_reference (stage : UsdStage UsdTimeCode VtValue)
    (instancerChain : List SdfPath) (p q : SdfPath)
    (node master : Usd_PrimData UsdTimeCode VtValue) :
    (_GetPrimPathFromInstancerChain TF_VERIFY stage instancerChain).toOption =
        instancePathRef stage instancerChain ∧
      _GetPrimPathFromInstancerChain TF_VERIFY stage [] = Except.ok SdfPath.empty ∧
      (stage.GetPrimAtPath p = some node → node.IsInMaster = true →
        node.ancestorsOrSelf.find? Usd_PrimData.IsMaster = some master →
        _GetPrimPathFromInstancerChain TF_VERIFY stage [p, q] =
          Except.ok (p.ReplacePrefix master.GetPath q)) ∧
      _GetPrimPathFromInstancerChain TF_VERIFY exampleStage
          [SdfPath.absolute ["Master1", "cube"], SdfPath.absolute ["PointInstancer", "ProtoA"]] =
        Except.ok (SdfPath.absolute ["PointInstancer", "ProtoA", "cube"]) ∧
      _GetPrimPathFromInstancerChain TF_VERIFY exampleStage
          [SdfPath.absolute ["__Master__1", "cube"],
            SdfPath.absolute ["__Master__2", "ProtoCube"],
            SdfPath.absolute ["PointInstancer", "ProtoA"]] =
        Except.ok (SdfPath.absolute ["PointInstancer", "ProtoA", "ProtoCube", "cube"]) := by
  refine ⟨resolver_toOption_eq_ref stage instancerChain, rfl, ?_, rfl, rfl⟩
  intro hnode hin hmaster
  have hwalk := (masterWalk_ok_iff node master).mpr hmaster
  simp [_GetPrimPathFromInstancerChain, instancerChainLoop, instancerChainStep, hnode,
    TF_VERIFY, hin, hwalk]

/-- C7. When the working path reached after the links consumed so far names a
node that does not live under a master subtree, the call on any longer chain
ends with the fatal verification failure: no path is returned and the result
does not depend on the links that follow. Moreover, whatever the check's macro
does with a false condition, no path is returned when the node has no master
among itself and its ancestors. -/
theorem _GetPrimPathFromInstancerChain_fatal_outside_master
    (stage : UsdStage UsdTimeCode VtValue) (consumed : List SdfPath) (working : SdfPath)
    (node : Usd_PrimData UsdTimeCode VtValue) (link : SdfPath) (later : List SdfPath)
    (hworking : _GetPrimPathFromInstancerChain TF_VERIFY stage consumed = Except.ok working)
    (hnode : stage.GetPrimAtPath working = some node)
    (houtside : node.IsInMaster = false) :
    _GetPrimPathFromInstancerChain TF_VERIFY stage (consumed ++ link :: later) =
        Except.error Failure.fatalVerify ∧
      ∀ verify : Bool → Except Failure Unit,
        _GetPrimPathFromInstancerChain verify stage consumed = Except.ok working →
        node.ancestorsOrSelf.find? Usd_PrimData.IsMaster = none →
        ∀ result : SdfPath,
          _GetPrimPathFromInstancerChain verify stage (consumed ++ link :: later) ≠
            Except.ok result := by
  cases consumed with
  | nil =>
    simp only [_GetPrimPathFromInstancerChain, Except.ok.injEq] at hworking
    rw [← hworking] at hnode
    simp [UsdStage.GetPrimAtPath] at hnode
  | cons first rest =>
    refine ⟨?_, ?_⟩
    · simp only [_GetPrimPathFromInstancerChain] at hworking
      simp only [List.cons_append, _GetPrimPathFromInstancerChain]
      rw [instancerChainLoop_append, hworking]
      simp [instancerChainLoop, instancerChainStep, hnode, TF_VERIFY, houtside]
    · intro verify hany hnomaster result hres
      simp only [_GetPrimPathFromInstancerChain] at hany
      simp only [List.cons_append, _GetPrimPathFromInstancerChain] at hres
      rw [instancerChainLoop_append, hany] at hres
      simp only [instancerChainLoop] at hres
      cases hstep : instancerChainStep verify stage working link with
      | error e => simp [hstep] at hres
      | ok next =>
        obtain ⟨prim, master, hprim, hwalk, _⟩ :=
          instancerChainStep_ok_inv verify stage working link next hstep
        rw [hnode] at hprim
        cases hprim
        rw [(masterWalk_ok_iff node master).mp hwalk] at hnomaster
        cases hnomaster

/-- Witness of C7: `/PointInstancer/ProtoA` is not under a master, so a chain
that goes on after it is aborted. -/
theorem _GetPrimPathFromInstancerChain_fatal_outside_master_witness :
    _GetPrimPathFromInstancerChain TF_VERIFY exampleStage
        [SdfPath.absolute ["PointInstancer", "ProtoA"],
          SdfPath.absolute ["__Master__2", "ProtoCube"],
          SdfPath.absolute ["Master1", "cube"]] =
      Except.error Failure.fatalVerify :=
  (_GetPrimPathFromInstancerChain_fatal_outside_master exampleStage
    [SdfPath.absolute ["PointInstancer", "ProtoA"]] (SdfPath.absolute ["PointInstancer", "ProtoA"])
    (Usd_PrimData.child
      (Usd_PrimData.child Usd_PrimData.pseudoRoot "PointInstancer" (plainFacts false false))
      "ProtoA" (plainFacts false false))
    (SdfPath.absolute ["__Master__2", "ProtoCube"]) [SdfPath.absolute ["Master1", "cube"]]
    rfl rfl rfl).1

/-- Counterexample to C8 as stated: on the example stage three different
well-formed chains resolve to the same path `/PointInstancer/ProtoA/cube`. -/
theorem _GetPrimPathFromInstancerChain_not_injective :
    wellFormedChain exampleStage
        [SdfPath.absolute ["Master1", "cube"], SdfPath.absolute ["PointInstancer", "ProtoA"]] =
        true ∧
      wellFormedChain exampleStage
        [SdfPath.absolute ["Master2", "cube"], SdfPath.absolute ["PointInstancer", "ProtoA"]] =
        true ∧
      wellFormedChain exampleStage [SdfPath.absolute ["PointInstancer", "ProtoA", "cube"]] =
        true ∧
      _GetPrimPathFromInstancerChain TF_VERIFY exampleStage
          [SdfPath.absolute ["Master1", "cube"], SdfPath.absolute ["PointInstancer", "ProtoA"]] =
        Except.ok (SdfPath.absolute ["PointInstancer", "ProtoA", "cube"]) ∧
      _GetPrimPathFromInstancerChain TF_VERIFY exampleStage
          [SdfPath.absolute ["Master2", "cube"], SdfPath.absolute ["PointInstancer", "ProtoA"]] =
        Except.ok (SdfPath.absolute ["PointInstancer", "ProtoA", "cube"]) ∧
      _GetPrimPathFromInstancerChain TF_VERIFY exampleStage
          [SdfPath.absolute ["PointInstancer", "ProtoA", "cube"]] =
        Except.ok (SdfPath.absolute ["PointInstancer", "ProtoA", "cube"]) ∧
      [SdfPath.absolute ["Master1", "cube"], SdfPath.absolute ["PointInstancer", "ProtoA"]] ≠
        [SdfPath.absolute ["Master2", "cube"], SdfPath.absolute ["PointInstancer", "ProtoA"]] ∧
      [SdfPath.absolute ["Master1", "cube"], SdfPath.absolute ["PointInstancer", "ProtoA"]] ≠
        [SdfPath.absolute ["PointInstancer", "ProtoA", "cube"]] :=
  ⟨rfl, rfl, rfl, rfl, rfl, rfl, by decide, by decide⟩

/-- C8, amended. The resolver is a function of the scene and the chain, and it
is injective in the last link: when two chains that differ at most in their last
link both resolve to the same path, their last links are equal. -/
theorem _GetPrimPathFromInstancerChain_injective_in_last_link
    (verify : Bool → Except Failure Unit) (stage : UsdStage UsdTimeCode VtValue)
    (chain : List SdfPath) (link1 link2 result : SdfPath)
    (hfirst :
      _GetPrimPathFromInstancerChain verify stage (chain ++ [link1]) = Except.ok result)
    (hsecond :
      _GetPrimPathFromInstancerChain verify stage (chain ++ [link2]) = Except.ok result) :
    link1 = link2 := by
  cases chain with
  | nil =>
    simp only [List.nil_append, _GetPrimPathFromInstancerChain, instancerChainLoop,
      Except.ok.injEq] at hfirst hsecond
    rw [hfirst, hsecond]
  | cons first later =>
    simp only [List.cons_append, _GetPrimPathFromInstancerChain] at hfirst hsecond
    rw [instancerChainLoop_append] at hfirst hsecond
    cases hloop : instancerChainLoop verify stage first later with
    | error e => simp [hloop] at hfirst
    | ok working =>
      simp only [hloop, instancerChainLoop] at hfirst hsecond
      cases hstep1 : instancerChainStep verify stage working link1 with
      | error e => simp [hstep1] at hfirst
      | ok next1 =>
        cases hstep2 : instancerChainStep verify stage working link2 with
        | error e => simp [hstep2] at hsecond
        | ok next2 =>
          simp only [hstep1, hstep2, Except.ok.injEq] at hfirst hsecond
          obtain ⟨prim, master, hprim, hwalk, hnext1⟩ :=
            instancerChainStep_ok_inv verify stage working link1 next1 hstep1
          obtain ⟨prim2, master2, hprim2, hwalk2, hnext2⟩ :=
            instancerChainStep_ok_inv verify stage working link2 next2 hstep2
          rw [hprim] at hprim2
          cases hprim2
          rw [hwalk] at hwalk2
          cases hwalk2
          have hpath := GetPrimAtPath_path stage working prim hprim
          have hsame : working.ReplacePrefix master.GetPath link1 =
              working.ReplacePrefix master.GetPath link2 := by
            rw [← hnext1, ← hnext2, hfirst, hsecond]
          rw [hpath] at hsame
          exact ReplacePrefix_injective prim.elems master.elems link1 link2
            (masterWalk_elems_start prim master hwalk) hsame

/-- Witness of C8, amended: two chains through `/Master1/cube` with the same
resolved path have the same last link. -/
theorem _GetPrimPathFromInstancerChain_injective_in_last_link_witness :
    _GetPrimPathFromInstancerChain TF_VERIFY exampleStage
        ([SdfPath.absolute ["Master1", "cube"]] ++ [SdfPath.absolute ["PointInstancer", "ProtoA"]]) =
        Except.ok (SdfPath.absolute ["PointInstancer", "ProtoA", "cube"]) ∧
      SdfPath.absolute ["PointInstancer", "ProtoA"] =
        SdfPath.absolute ["PointInstancer", "ProtoA"] :=
  ⟨rfl,
    _GetPrimPathFromInstancerChain_injective_in_last_link TF_VERIFY exampleStage
      [SdfPath.absolute ["Master1", "cube"]] (SdfPath.absolute ["PointInstancer", "ProtoA"])
      (SdfPath.absolute ["PointInstancer", "ProtoA"])
      (SdfPath.absolute ["PointInstancer", "ProtoA", "cube"]) rfl rfl⟩

/-- C9. The path that the resolver returns for a chain, taken as a one-link
chain, resolves to itself; and a one-link chain resolves to its link on every
stage, so without any scene lookup. -/
theorem _GetPrimPathFromInstancerChain_idempotent (verify : Bool → Except Failure Unit)
    (stage other : UsdStage UsdTimeCode VtValue) (instancerChain : List SdfPath)
    (result link : SdfPath)
    (hresult : _GetPrimPathFromInstancerChain verify stage instancerChain = Except.ok result) :
    _GetPrimPathFromInstancerChain verify stage [result] =
        _GetPrimPathFromInstancerChain verify stage instancerChain ∧
      _GetPrimPathFromInstancerChain verify stage [link] = Except.ok link ∧
      _GetPrimPathFromInstancerChain verify other [link] = Except.ok link := by
  rw [hresult]
  exact ⟨rfl, rfl, rfl⟩

/-- Witness of C9: the resolved path of the three-link chain of the code
comment resolves to itself as a one-link chain. -/
theorem _GetPrimPathFromInstancerChain_idempotent_witness :
    _GetPrimPathFromInstancerChain TF_VERIFY exampleStage
        [SdfPath.absolute ["PointInstancer", "ProtoA", "ProtoCube", "cube"]] =
      _GetPrimPathFromInstancerChain TF_VERIFY exampleStage
        [SdfPath.absolute ["__Master__1", "cube"],
          SdfPath.absolute ["__Master__2", "ProtoCube"],
          SdfPath.absolute ["PointInstancer", "ProtoA"]] :=
  (_GetPrimPathFromInstancerChain_idempotent TF_VERIFY exampleStage exampleStage
    [SdfPath.absolute ["__Master__1", "cube"], SdfPath.absolute ["__Master__2", "ProtoCube"],
      SdfPath.absolute ["PointInstancer", "ProtoA"]]
    (SdfPath.absolute ["PointInstancer", "ProtoA", "ProtoCube", "cube"])
    SdfPath.empty rfl).1

end ResolverProperties

/-! ## Properties of _IsVarying -/

section VaryingProperties

variable {UsdTimeCode VtValue : Type}

theorem and_complement32_and_self (dirtyFlags dirtyFlag : HdDirtyBits) :
    (dirtyFlags &&& complement32 dirtyFlag) &&& dirtyFlag = 0 := by
  apply Nat.eq_of_testBit_eq
  intro i
  simp only [complement32, Nat.testBit_and, Nat.testBit_xor, Nat.testBit_two_pow_sub_one,
    Nat.testBit_mod_two_pow, Nat.zero_testBit]
  by_cases hi : i < 32 <;> cases dirtyFlag.testBit i <;> simp [hi]

theorem path_of_child_ne_root (parent : Usd_PrimData UsdTimeCode VtValue) (name : TfToken)
    (facts : UsdPrimFacts UsdTimeCode VtValue) :
    (Usd_PrimData.child parent name facts).GetPath ≠ SdfPath.AbsoluteRootPath := by
  simp [Usd_PrimData.GetPath, Usd_PrimData.elems, SdfPath.AbsoluteRootPath]

theorem isVaryingLoop_false_of_absent (attrName : TfToken) (isInherited : Bool)
    (parent : Usd_PrimData UsdTimeCode VtValue) (name : TfToken)
    (facts : UsdPrimFacts UsdTimeCode VtValue)
    (habsent : ∀ node ∈ (Usd_PrimData.child parent name facts).ancestorsOrSelf,
      attrMightBeTimeVarying (node.GetAttribute attrName) = false) :
    isVaryingLoop attrName isInherited (Usd_PrimData.child parent name facts) =
      Except.ok false := by
  induction parent generalizing name facts with
  | pseudoRoot =>
    have hself := habsent _ (List.mem_cons_self _ _)
    simp only [Usd_PrimData.GetAttribute] at hself
    simp [isVaryingLoop, hself, Usd_PrimData.GetPath, Usd_PrimData.elems,
      SdfPath.AbsoluteRootPath]
  | child grand parentName parentFacts ih =>
    have hself := habsent _ (List.mem_cons_self _ _)
    simp only [Usd_PrimData.GetAttribute] at hself
    have hup := ih parentName parentFacts (fun node hmem =>
      habsent node (by
        simp only [Usd_PrimData.ancestorsOrSelf, List.mem_cons] at hmem ⊢
        exact Or.inr hmem))
    rw [isVaryingLoop]
    simp only [hself, Bool.false_eq_true, if_false]
    cases isInherited with
    | false => simp
    | true =>
      simp only [Bool.true_and, decide_eq_true_eq,
        path_of_child_ne_root grand parentName parentFacts, ne_eq, not_false_eq_true, if_true]
      exact hup

/-- C6. For every node (a prim below the pseudo-root), attribute name, dirty
bit, initial dirty flags and value of `isInherited`: when neither the node nor
any of its ancestors has a time-varying attribute of that name, `_IsVarying`
returns false and the dirty bit is cleared in the resulting flags, whatever it
was on entry. -/
theorem _IsVarying_false_of_absent (parent : Usd_PrimData UsdTimeCode VtValue)
    (name : TfToken) (facts : UsdPrimFacts UsdTimeCode VtValue) (attrName : TfToken)
    (dirtyFlag : HdDirtyBits) (perfToken : TfToken) (dirtyFlags : HdDirtyBits)
    (isInherited : Bool)
    (habsent : ∀ node ∈ (Usd_PrimData.child parent name facts).ancestorsOrSelf,
      attrMightBeTimeVarying (node.GetAttribute attrName) = false) :
    _IsVarying (some (Usd_PrimData.child parent name facts)) attrName dirtyFlag perfToken
        dirtyFlags isInherited =
        Except.ok (false, dirtyFlags &&& complement32 dirtyFlag) ∧
      (dirtyFlags &&& complement32 dirtyFlag) &&& dirtyFlag = 0 := by
  refine ⟨?_, and_complement32_and_self dirtyFlags dirtyFlag⟩
  simp only [_IsVarying,
    isVaryingLoop_false_of_absent attrName isInherited parent name facts habsent]

/-- Witness of C6: `/world/mesh` and `/world` have no time-varying `visibility`,
and bit 4 is cleared from the flags 7. -/
theorem _IsVarying_false_of_absent_witness :
    _IsVarying (some exampleMesh) "visibility" 4 "varyingVisibility" 7 true =
      Except.ok (false, 3) :=
  (_IsVarying_false_of_absent exampleWorld "mesh" exampleMeshFacts "visibility" 4
    "varyingVisibility" 7 true (by
      intro node hmem
      simp only [Usd_PrimData.ancestorsOrSelf, exampleWorld, List.mem_cons, List.mem_singleton,
        List.mem_nil_iff, or_false] at hmem
      rcases hmem with h | h | h <;> rw [h] <;> rfl)).1

end VaryingProperties

/-! ## Properties of GetTransform, GetVisible and GetMaterialId -/

section CacheProperties

variable {UsdTimeCode VtValue GfMatrix4d Overrides ImplData : Type} [BEq UsdTimeCode]

/-- Counterexample to C10 as stated: with the binding cache enabled and
stamped with time 1, a read for time 2 returns the value stored in the cache,
not the recomputed `/Looks/Direct`, and two caches with different contents give
different results. -/
theorem GetMaterialId_reads_stale_cache :
    (staleBindingCacheA.GetTime == (2 : Int)) = false ∧
      (staleBindingCacheB.GetTime == (2 : Int)) = false ∧
      GetMaterialId allCachesEnabled staleBindingCacheA
          (fun _ (_ : Unit) => SdfPath.absolute ["Looks", "Direct"]) () exampleMesh =
        SdfPath.absolute ["Looks", "MatA"] ∧
      GetMaterialId allCachesEnabled staleBindingCacheB
          (fun _ (_ : Unit) => SdfPath.absolute ["Looks", "Direct"]) () exampleMesh =
        SdfPath.absolute ["Looks", "MatB"] ∧
      GetMaterialId allCachesEnabled staleBindingCacheA
          (fun _ (_ : Unit) => SdfPath.absolute ["Looks", "Direct"]) () exampleMesh ≠
        GetMaterialId allCachesEnabled staleBindingCacheB
          (fun _ (_ : Unit) => SdfPath.absolute ["Looks", "Direct"]) () exampleMesh :=
  ⟨by decide, by decide, rfl, rfl, by decide⟩

/-- C10, amended. When the transform cache (resp. visibility cache) is stamped
with a time different from the requested one, `GetTransform` (resp. `GetVisible`)
returns the directly recomputed value, composed with the root transform unless
suppressed (resp. compared with `inherited`, after the invised-paths check), so
the result is the same for any two such caches with the same root path. When an
enabled cache is stamped with the requested time, both return the value stored
in the cache, so two reads at the same time return the same value.
`GetMaterialId` takes no time: it returns the binding cache's value when that
cache is enabled, whatever its stamp, and recomputes only when it is disabled. -/
theorem cache_reads_follow_time_stamp (settings : CacheSettings)
    (xfCache xfOther xfCurrent : UsdImaging_InheritedCache UsdTimeCode VtValue GfMatrix4d)
    (ComputeTransform :
      Usd_PrimData UsdTimeCode VtValue → SdfPath → UsdTimeCode → Overrides → GfMatrix4d)
    (rigidXformOverrides : Overrides) (mul : GfMatrix4d → GfMatrix4d → GfMatrix4d)
    (GetRootTransform : GfMatrix4d) (IsInInvisedPaths : SdfPath → Bool)
    (visCache visOther visCurrent : UsdImaging_InheritedCache UsdTimeCode VtValue TfToken)
    (ComputeVisibility : Usd_PrimData UsdTimeCode VtValue → UsdTimeCode → TfToken)
    (inherited : TfToken)
    (materialBindingCache : UsdImaging_InheritedCache UsdTimeCode VtValue SdfPath)
    (ComputeMaterialPath : Usd_PrimData UsdTimeCode VtValue → ImplData → SdfPath)
    (materialBindingImplData : ImplData) (prim : Usd_PrimData UsdTimeCode VtValue)
    (time : UsdTimeCode) (ignoreRootTransform : Bool)
    (hxf : (xfCache.GetTime == time) = false) (hxfOther : (xfOther.GetTime == time) = false)
    (hroot : xfOther.GetRootPath = xfCache.GetRootPath)
    (hvis : (visCache.GetTime == time) = false)
    (hvisOther : (visOther.GetTime == time) = false) :
    (GetTransform settings xfCache ComputeTransform rigidXformOverrides mul GetRootTransform
        prim time ignoreRootTransform =
        if ignoreRootTransform then
          ComputeTransform prim xfCache.GetRootPath time rigidXformOverrides
        else
          mul (ComputeTransform prim xfCache.GetRootPath time rigidXformOverrides)
            GetRootTransform) ∧
      GetTransform settings xfCache ComputeTransform rigidXformOverrides mul GetRootTransform
          prim time ignoreRootTransform =
        GetTransform settings xfOther ComputeTransform rigidXformOverrides mul GetRootTransform
          prim time ignoreRootTransform ∧
      (GetVisible settings IsInInvisedPaths visCache ComputeVisibility inherited prim time =
        if IsInInvisedPaths prim.GetPath then false
        else ComputeVisibility prim time == inherited) ∧
      GetVisible settings IsInInvisedPaths visCache ComputeVisibility inherited prim time =
        GetVisible settings IsInInvisedPaths visOther ComputeVisibility inherited prim time ∧
      (settings.enableSharedXformCache = true → (xfCurrent.GetTime == time) = true →
        GetTransform settings xfCurrent ComputeTransform rigidXformOverrides mul
            GetRootTransform prim time ignoreRootTransform =
          if ignoreRootTransform then xfCurrent.GetValue prim
          else mul (xfCurrent.GetValue prim) GetRootTransform) ∧
      (settings.enableVisCache = true → (visCurrent.GetTime == time) = true →
        GetVisible settings IsInInvisedPaths visCurrent ComputeVisibility inherited prim time =
          if IsInInvisedPaths prim.GetPath then false
          else visCurrent.GetValue prim == inherited) ∧
      (settings.enableBindingCache = true →
        GetMaterialId settings materialBindingCache ComputeMaterialPath
          materialBindingImplData prim = materialBindingCache.GetValue prim) ∧
      (settings.enableBindingCache = false →
        GetMaterialId settings materialBindingCache ComputeMaterialPath
          materialBindingImplData prim = ComputeMaterialPath prim materialBindingImplData) := by
  refine ⟨?_, ?_, ?_, ?_, ?_, ?_, ?_, ?_⟩
  · simp [GetTransform, hxf]
  · simp [GetTransform, hxf, hxfOther, hroot]
  · simp [GetVisible, hvis]
  · simp [GetVisible, hvis, hvisOther]
  · intro henabled hsame
    simp [GetTransform, henabled, hsame]
  · intro henabled hsame
    simp [GetVisible, henabled, hsame]
  · intro henabled
    simp [GetMaterialId, henabled]
  · intro hdisabled
    simp [GetMaterialId, hdisabled]

/-- Witness of C10, amended: read at time 2 from caches stamped with time 1, the
transform is the recomputed 5 times the root transform 3, whatever the cache
holds. -/
theorem cache_reads_follow_time_stamp_witness :
    GetTransform allCachesEnabled (staleXformCache 7)
        (fun _ _ (time : Int) (_ : Unit) => time + 3) () (fun a b => a * b) 3 exampleMesh 2
        false = 15 ∧
      GetTransform allCachesEnabled (staleXformCache 7)
          (fun _ _ (time : Int) (_ : Unit) => time + 3) () (fun a b => a * b) 3 exampleMesh 2
          false =
        GetTransform allCachesEnabled (staleXformCache 8)
          (fun _ _ (time : Int) (_ : Unit) => time + 3) () (fun a b => a * b) 3 exampleMesh 2
          false :=
  ⟨by decide,
    (cache_reads_follow_time_stamp allCachesEnabled (staleXformCache 7) (staleXformCache 8)
      (staleXformCache 9) (fun _ _ (time : Int) (_ : Unit) => time + 3) () (fun a b => a * b)
      3 (fun _ => false) (staleVisCache "invisible") (staleVisCache "inherited")
      (staleVisCache "inherited") (fun _ _ => "inherited") "inherited" staleBindingCacheA
      (fun _ (_ : Unit) => SdfPath.absolute ["Looks", "Direct"]) () exampleMesh 2 false
      (by decide) (by decide) rfl (by decide) (by decide)).2.1⟩

end CacheProperties

/-! ## Dirty flags across _IsVarying and _IsTransformVarying -/

section DirtyFlagProperties

variable {UsdTimeCode VtValue : Type}

theorem testBit_and_complement32 (dirtyFlags dirtyFlag : HdDirtyBits) (i : Nat) (hi : i < 32)
    (hoff : dirtyFlag.testBit i = false) :
    (dirtyFlags &&& complement32 dirtyFlag).testBit i = dirtyFlags.testBit i := by
  simp only [complement32, Nat.testBit_and, Nat.testBit_xor, Nat.testBit_two_pow_sub_one,
    Nat.testBit_mod_two_pow, hoff]
  simp [hi]

theorem or_and_self (cleared dirtyFlag : HdDirtyBits) :
    (cleared ||| dirtyFlag) &&& dirtyFlag = dirtyFlag := by
  apply Nat.eq_of_testBit_eq
  intro i
  simp only [Nat.testBit_and, Nat.testBit_or]
  cases cleared.testBit i <;> cases dirtyFlag.testBit i <;> rfl

theorem isVaryingLoop_returns (attrName : TfToken) (isInherited : Bool)
    (parent : Usd_PrimData UsdTimeCode VtValue) (name : TfToken)
    (facts : UsdPrimFacts UsdTimeCode VtValue) :
    ∃ answer, isVaryingLoop attrName isInherited (Usd_PrimData.child parent name facts) =
      Except.ok answer := by
  induction parent generalizing name facts with
  | pseudoRoot =>
    cases hself : attrMightBeTimeVarying (facts.GetAttribute attrName) with
    | true => exact ⟨true, by simp [isVaryingLoop, hself]⟩
    | false =>
      exact ⟨false, by
        simp [isVaryingLoop, hself, Usd_PrimData.GetPath, Usd_PrimData.elems,
          SdfPath.AbsoluteRootPath]⟩
  | child grand parentName parentFacts ih =>
    cases hself : attrMightBeTimeVarying (facts.GetAttribute attrName) with
    | true => exact ⟨true, by simp [isVaryingLoop, hself]⟩
    | false =>
      cases isInherited with
      | false => exact ⟨false, by simp [isVaryingLoop, hself]⟩
      | true =>
        obtain ⟨answer, hup⟩ := ih parentName parentFacts
        refine ⟨answer, ?_⟩
        rw [isVaryingLoop]
        simp only [hself, Bool.false_eq_true, if_false, Bool.true_and, decide_eq_true_eq,
          path_of_child_ne_root grand parentName parentFacts, ne_eq, not_false_eq_true,
          if_true]
        exact hup

theorem isTransformVaryingLoop_returns
    (GetQuery : Usd_PrimData UsdTimeCode VtValue → XformQuery)
    (parent : Usd_PrimData UsdTimeCode VtValue) (name : TfToken)
    (facts : UsdPrimFacts UsdTimeCode VtValue) :
    ∃ answer, isTransformVaryingLoop GetQuery (Usd_PrimData.child parent name facts) =
      Except.ok answer := by
  induction parent generalizing name facts with
  | pseudoRoot =>
    cases hvary :
        (GetQuery (Usd_PrimData.child Usd_PrimData.pseudoRoot name facts)).TransformMightBeTimeVarying
      with
    | true => exact ⟨true, by simp [isTransformVaryingLoop, hvary]⟩
    | false =>
      exact ⟨false, by
        simp [isTransformVaryingLoop, hvary, Usd_PrimData.GetPath, Usd_PrimData.elems,
          SdfPath.AbsoluteRootPath]⟩
  | child grand parentName parentFacts ih =>
    cases hvary :
        (GetQuery (Usd_PrimData.child (Usd_PrimData.child grand parentName parentFacts)
          name facts)).TransformMightBeTimeVarying with
    | true => exact ⟨true, by simp [isTransformVaryingLoop, hvary]⟩
    | false =>
      cases hreset :
          (GetQuery (Usd_PrimData.child (Usd_PrimData.child grand parentName parentFacts)
            name facts)).GetResetXformStack with
      | true => exact ⟨false, by simp [isTransformVaryingLoop, hvary, hreset]⟩
      | false =>
        obtain ⟨answer, hup⟩ := ih parentName parentFacts
        refine ⟨answer, ?_⟩
        rw [isTransformVaryingLoop]
        simp only [hvary, hreset, Bool.false_eq_true, if_false, decide_eq_true_eq,
          path_of_child_ne_root grand parentName parentFacts, ne_eq, not_false_eq_true,
          if_true]
        exact hup

theorem flags_after_update (dirtyFlags dirtyFlag : HdDirtyBits) (answer : Bool) :
    (∀ i : Nat, i < 32 → dirtyFlag.testBit i = false →
        (if answer = true then (dirtyFlags &&& complement32 dirtyFlag) ||| dirtyFlag
          else dirtyFlags &&& complement32 dirtyFlag).testBit i = dirtyFlags.testBit i) ∧
      (if answer = true then (dirtyFlags &&& complement32 dirtyFlag) ||| dirtyFlag
        else dirtyFlags &&& complement32 dirtyFlag) &&& dirtyFlag =
        if answer = true then dirtyFlag else 0 := by
  cases answer with
  | true =>
    refine ⟨?_, by simpa using or_and_self _ _⟩
    intro i hi hoff
    simp only [if_true, Nat.testBit_or, hoff, Bool.or_false]
    exact testBit_and_complement32 dirtyFlags dirtyFlag i hi hoff
  | false =>
    refine ⟨?_, by simpa using and_complement32_and_self dirtyFlags dirtyFlag⟩
    intro i hi hoff
    simpa using testBit_and_complement32 dirtyFlags dirtyFlag i hi hoff

/-- Counterexample to C11 as stated: the bit of value 4 (index 2) is set in the
flags 7 before the call and cleared in the flags 3 after it, for `_IsVarying` on `/world/mesh` with the constant
`visibility` and for `_IsTransformVarying` with a transform that does not
vary. -/
theorem dirty_bit_cleared_by_IsVarying :
    Nat.testBit 7 2 = true ∧
      _IsVarying (some exampleMesh) "visibility" 4 "varyingVisibility" 7 true =
        Except.ok (false, 3) ∧
      _IsTransformVarying (fun _ => ⟨false, false⟩) (some exampleMesh) 4 "varyingXform" 7 =
        Except.ok (false, 3) ∧
      Nat.testBit 3 2 = false :=
  ⟨by decide, rfl, rfl, by decide⟩

/-- C11, amended. For every node, `_IsVarying` and `_IsTransformVarying` return,
and they change the dirty flags only in the bits of `dirtyFlag`: every other bit
of the 32 bit mask is after the call what it was before, so a bit set before and
not in `dirtyFlag` is still set; the bits of `dirtyFlag` are all set after a
call that returns true and all cleared after a call that returns false. -/
theorem dirty_flags_change_only_in_dirtyFlag
    (GetQuery : Usd_PrimData UsdTimeCode VtValue → XformQuery)
    (parent : Usd_PrimData UsdTimeCode VtValue) (name : TfToken)
    (facts : UsdPrimFacts UsdTimeCode VtValue) (attrName : TfToken) (dirtyFlag : HdDirtyBits)
    (perfToken : TfToken) (dirtyFlags : HdDirtyBits) (isInherited : Bool) :
    (∃ answer flags,
        _IsVarying (some (Usd_PrimData.child parent name facts)) attrName dirtyFlag perfToken
          dirtyFlags isInherited = Except.ok (answer, flags) ∧
        (∀ i : Nat, i < 32 → dirtyFlag.testBit i = false →
          flags.testBit i = dirtyFlags.testBit i) ∧
        flags &&& dirtyFlag = if answer = true then dirtyFlag else 0) ∧
      ∃ answer flags,
        _IsTransformVarying GetQuery (some (Usd_PrimData.child parent name facts)) dirtyFlag
          perfToken dirtyFlags = Except.ok (answer, flags) ∧
        (∀ i : Nat, i < 32 → dirtyFlag.testBit i = false →
          flags.testBit i = dirtyFlags.testBit i) ∧
        flags &&& dirtyFlag = if answer = true then dirtyFlag else 0 := by
  constructor
  · obtain ⟨answer, hloop⟩ := isVaryingLoop_returns attrName isInherited parent name facts
    refine ⟨answer, _, ?_, flags_after_update dirtyFlags dirtyFlag answer⟩
    cases answer <;> simp [_IsVarying, hloop]
  · obtain ⟨answer, hloop⟩ := isTransformVaryingLoop_returns GetQuery parent name facts
    refine ⟨answer, _, ?_, flags_after_update dirtyFlags dirtyFlag answer⟩
    cases answer <;> simp [_IsTransformVarying, hloop]

end DirtyFlagProperties

end UsdImaging
